import Mathlib

/-!
Shallow embedding of the multi-agent-system repository (message model,
message bus, base agent task handling, manager decomposition and gather
loop, coordinator task bookkeeping, research-agent confidence pipeline),
together with theorems settling the frozen claims about it.

Conventions of the embedding:
* Python dicts keyed by strings are modelled as association lists
  `List (String × β)`; `dict.get(k)` is an option-returning lookup.
* `asyncio.Queue` inboxes are FIFO lists: enqueue appends at the tail.
* Values produced at construction time by `uuid4()` are threaded in as
  explicit `freshId` arguments; `datetime.now()` timestamps are carried
  as a field but never inspected by any operation, so constructed
  messages leave the field at its default.
* Fallible Python code (a `try`/`except` around `process_task`) is
  modelled with `Except`.
* Python floats along the research-confidence path are modelled as
  exact rationals, with `round(x, 2)` modelled as round-half-to-even at
  two decimal places.
-/

namespace MAS

/-- Association-list lookup, modelling Python `dict` access / `in`. -/
def lookupA {β : Type} (k : String) : List (String × β) → Option β
  | [] => none
  | (k', v) :: rest => if k' = k then some v else lookupA k rest

/-- Association-list insert-or-replace, modelling Python `d[k] = v`. -/
def insertA {β : Type} (k : String) (v : β) : List (String × β) → List (String × β)
  | [] => [(k, v)]
  | (k', v') :: rest => if k' = k then (k, v) :: rest else (k', v') :: insertA k v rest

/-- `MessageType` from src/communication/message.py. -/
inductive MessageType where
  | task
  | result
  | request
  | response
  | broadcast
  | status
  | error
deriving DecidableEq, Repr

/-- `Message` from src/communication/message.py, polymorphic in the payload
type (Python's `content: Any`).  `message_id` is threaded explicitly in
place of the `uuid4()` default factory; `timestamp` stands for the
`datetime.now()` default and is never inspected by any operation. -/
structure Message (α : Type) where
  to_ : String
  from_ : String
  message_type : MessageType
  content : α
  message_id : String
  correlation_id : Option String := none
  timestamp : Nat := 0
  metadata : List (String × String) := []
deriving DecidableEq, Repr

/-- `Message.reply` from src/communication/message.py: a fresh message with
recipient and sender swapped and `correlation_id` set to the replied-to
message's id.  `freshId` stands for the `uuid4()` default of the new
message's id. -/
def Message.reply {α β : Type} (m : Message α) (content : β)
    (message_type : MessageType := MessageType.response) (freshId : String := "") :
    Message β :=
  { to_ := m.from_
    from_ := m.to_
    message_type := message_type
    content := content
    message_id := freshId
    correlation_id := some m.message_id }

/-- Claim C6: for every message `original` and every content value,
`original.reply(content)` returns a new message whose `to` is
`original.from_`, whose `from_` is `original.to`, and whose
`correlation_id` is `original.message_id`. -/
theorem reply_swaps_and_correlates {α β : Type} (original : Message α) (content : β)
    (mt : MessageType) (fid : String) :
    (original.reply content mt fid).to_ = original.from_ ∧
    (original.reply content mt fid).from_ = original.to_ ∧
    (original.reply content mt fid).correlation_id = some original.message_id :=
  ⟨rfl, rfl, rfl⟩

/-- `MessageBus` state from src/communication/message_bus.py: the registry
`agents` mapping agent ids to their inboxes (FIFO lists, enqueue at the
tail) and the append-only `message_history`.  The Python object's
`running` flag and `asyncio.Lock` guard concurrency only and carry no
data. -/
structure MessageBus (α : Type) where
  agents : List (String × List (Message α))
  message_history : List (Message α)
deriving DecidableEq, Repr

/-- Enqueue a message at the tail of the inbox registered under `aid`
(the effect of `await inbox.put(message)` on the registry view). -/
def enqueueA {α : Type} (aid : String) (m : Message α) :
    List (String × List (Message α)) → List (String × List (Message α))
  | [] => []
  | (k, inbox) :: rest =>
      if k = aid then (k, inbox ++ [m]) :: rest else (k, inbox) :: enqueueA aid m rest

/-- `MessageBus.send_message` from src/communication/message_bus.py: if the
recipient is not registered, return `False` and change nothing; otherwise
enqueue the message into the recipient's inbox, append it to the history,
and return `True`. -/
def MessageBus.send_message {α : Type} (bus : MessageBus α) (message : Message α) :
    Bool × MessageBus α :=
  match lookupA message.to_ bus.agents with
  | none => (false, bus)
  | some _ =>
      (true,
        { agents := enqueueA message.to_ message bus.agents
          message_history := bus.message_history ++ [message] })

/-- The per-recipient copy built inside `MessageBus.broadcast`: kind forced
to BROADCAST, content and metadata taken from the original, sender
preserved, recipient the target agent, fresh id `fid`. -/
def broadcastCopy {α : Type} (m : Message α) (aid : String) (fid : String) : Message α :=
  { to_ := aid
    from_ := m.from_
    message_type := MessageType.broadcast
    content := m.content
    message_id := fid
    metadata := m.metadata }

/-- The registry-iteration loop of `MessageBus.broadcast`: walk the registry
in order, enqueue a copy for every agent not excluded and distinct from the
sender, and count deliveries.  `fresh` supplies the `uuid4()` id of the
`count`-th copy. -/
def broadcastLoop {α : Type} (m : Message α) (exclude : List String) (fresh : Nat → String) :
    List (String × List (Message α)) → Nat → List (String × List (Message α)) × Nat
  | [], count => ([], count)
  | (aid, inbox) :: rest, count =>
      if aid ∉ exclude ∧ aid ≠ m.from_ then
        let r := broadcastLoop m exclude fresh rest (count + 1)
        ((aid, inbox ++ [broadcastCopy m aid (fresh count)]) :: r.1, r.2)
      else
        let r := broadcastLoop m exclude fresh rest count
        ((aid, inbox) :: r.1, r.2)

/-- `MessageBus.broadcast` from src/communication/message_bus.py: deliver a
copy to every registered agent except the sender and the excluded ids,
append the original message once to the history, and return the delivery
count. -/
def MessageBus.broadcast {α : Type} (bus : MessageBus α) (m : Message α)
    (exclude : List String) (fresh : Nat → String) : Nat × MessageBus α :=
  let r := broadcastLoop m exclude fresh bus.agents 0
  (r.2, { agents := r.1, message_history := bus.message_history ++ [m] })

/-- The last `n` elements of a list, the meaning of Python's `l[-n:]` for
`n ≥ 1`. -/
def takeLast {β : Type} (n : Nat) (l : List β) : List β :=
  l.drop (l.length - n)

/-- `MessageBus.get_history` from src/communication/message_bus.py.  The
Python guards are truthiness tests: `if agent_id:` filters only for a
non-`None`, non-empty id, and `if limit:` trims only for a non-`None`,
non-zero limit. -/
def MessageBus.get_history {α : Type} (bus : MessageBus α)
    (agent_id : Option String := none) (limit : Option Nat := none) : List (Message α) :=
  let h1 :=
    match agent_id with
    | some a =>
        if a ≠ "" then
          bus.message_history.filter (fun msg => decide (msg.from_ = a ∨ msg.to_ = a))
        else bus.message_history
    | none => bus.message_history
  match limit with
  | some n => if n ≠ 0 then takeLast n h1 else h1
  | none => h1

/-- Claim C2: sending to an unregistered recipient returns `false` without
throwing, and leaves both the history and every registered inbox exactly
as they were. -/
theorem send_message_unregistered {α : Type} (bus : MessageBus α) (m : Message α)
    (h : lookupA m.to_ bus.agents = none) :
    (bus.send_message m).1 = false ∧
    (bus.send_message m).2.message_history = bus.message_history ∧
    (bus.send_message m).2.agents = bus.agents := by
  simp [MessageBus.send_message, h]

/-- Concrete instance of `send_message_unregistered`: a bus with only
agent `a` registered, a message addressed to `z`. -/
theorem send_message_unregistered_witness :
    ((⟨[("a", [])], []⟩ : MessageBus Unit).send_message
        { to_ := "z", from_ := "a", message_type := MessageType.task, content := ()
          message_id := "m1" }).1 = false ∧
    ((⟨[("a", [])], []⟩ : MessageBus Unit).send_message
        { to_ := "z", from_ := "a", message_type := MessageType.task, content := ()
          message_id := "m1" }).2.message_history = [] ∧
    ((⟨[("a", [])], []⟩ : MessageBus Unit).send_message
        { to_ := "z", from_ := "a", message_type := MessageType.task, content := ()
          message_id := "m1" }).2.agents = [("a", [])] :=
  send_message_unregistered _ _ (by decide)

/-- The delivery count of the broadcast loop is its starting count plus the
number of registry entries that are neither excluded nor the sender. -/
theorem broadcastLoop_count {α : Type} (m : Message α) (ex : List String) (f : Nat → String) :
    ∀ (l : List (String × List (Message α))) (c : Nat),
      (broadcastLoop m ex f l c).2 =
        c + l.countP (fun p => decide (p.1 ∉ ex ∧ p.1 ≠ m.from_))
  | [], c => by simp [broadcastLoop]
  | (aid, inbox) :: rest, c => by
      by_cases hc : aid ∉ ex ∧ aid ≠ m.from_
      · simp [broadcastLoop, hc, broadcastLoop_count m ex f rest (c + 1), List.countP_cons]
        omega
      · simp [broadcastLoop, hc, broadcastLoop_count m ex f rest c, List.countP_cons]

/-- Effect of the broadcast loop on one registered inbox: a non-excluded,
non-sender agent receives exactly the one copy appended at its tail; an
excluded agent or the sender keeps its inbox unchanged. -/
theorem broadcastLoop_lookup {α : Type} (m : Message α) (ex : List String) (f : Nat → String) :
    ∀ (l : List (String × List (Message α))) (c : Nat) (aid : String)
      (inbox : List (Message α)), lookupA aid l = some inbox →
      ((aid ∉ ex ∧ aid ≠ m.from_) →
        ∃ k, lookupA aid (broadcastLoop m ex f l c).1 =
          some (inbox ++ [broadcastCopy m aid (f k)])) ∧
      (¬(aid ∉ ex ∧ aid ≠ m.from_) →
        lookupA aid (broadcastLoop m ex f l c).1 = some inbox)
  | [], c, aid, inbox, h => by simp [lookupA] at h
  | (k0, inb0) :: rest, c, aid, inbox, h => by
      by_cases hk : k0 = aid
      · subst hk
        simp [lookupA] at h
        subst h
        by_cases hc : k0 ∉ ex ∧ k0 ≠ m.from_
        · exact ⟨fun _ => ⟨c, by simp [broadcastLoop, hc, lookupA]⟩, fun hn => absurd hc hn⟩
        · exact ⟨fun hy => absurd hy hc, fun _ => by simp [broadcastLoop, hc, lookupA]⟩
      · have h' : lookupA aid rest = some inbox := by
          simpa [lookupA, hk] using h
        by_cases hc : k0 ∉ ex ∧ k0 ≠ m.from_
        · have ih := broadcastLoop_lookup m ex f rest (c + 1) aid inbox h'
          exact ⟨fun hy => (ih.1 hy).imp (fun k hk2 => by simp [broadcastLoop, hc, lookupA, hk, hk2]),
                 fun hn => by simp [broadcastLoop, hc, lookupA, hk, ih.2 hn]⟩
        · have ih := broadcastLoop_lookup m ex f rest c aid inbox h'
          exact ⟨fun hy => (ih.1 hy).imp (fun k hk2 => by simp [broadcastLoop, hc, lookupA, hk, hk2]),
                 fun hn => by simp [broadcastLoop, hc, lookupA, hk, ih.2 hn]⟩

/-- Claim C3: `broadcast(m, exclude)` enqueues exactly one message into the
inbox of each registered agent whose id is neither the sender nor
excluded and returns that count; each delivered message is a copy with
kind forced to BROADCAST and the original's content, metadata and sender;
and the history grows by exactly the original message. -/
theorem broadcast_spec {α : Type} (bus : MessageBus α) (m : Message α)
    (exclude : List String) (fresh : Nat → String) (aid : String)
    (inbox : List (Message α)) (h : lookupA aid bus.agents = some inbox) :
    (bus.broadcast m exclude fresh).2.message_history = bus.message_history ++ [m] ∧
    (bus.broadcast m exclude fresh).1 =
      bus.agents.countP (fun p => decide (p.1 ∉ exclude ∧ p.1 ≠ m.from_)) ∧
    ((aid ∉ exclude ∧ aid ≠ m.from_) →
      ∃ c : Message α,
        lookupA aid (bus.broadcast m exclude fresh).2.agents = some (inbox ++ [c]) ∧
        c.message_type = MessageType.broadcast ∧ c.content = m.content ∧
        c.metadata = m.metadata ∧ c.from_ = m.from_ ∧ c.to_ = aid ∧
        c.correlation_id = none) ∧
    ((aid ∈ exclude ∨ aid = m.from_) →
      lookupA aid (bus.broadcast m exclude fresh).2.agents = some inbox) := by
  have hl := broadcastLoop_lookup m exclude fresh bus.agents 0 aid inbox h
  refine ⟨rfl, ?_, ?_, ?_⟩
  · simpa [MessageBus.broadcast] using broadcastLoop_count m exclude fresh bus.agents 0
  · intro hy
    obtain ⟨k, hk⟩ := hl.1 hy
    exact ⟨broadcastCopy m aid (fresh k), by simpa [MessageBus.broadcast] using hk,
      rfl, rfl, rfl, rfl, rfl, rfl⟩
  · intro hn
    have : ¬(aid ∉ exclude ∧ aid ≠ m.from_) := by
      rcases hn with hn | hn
      · exact fun hc => hc.1 hn
      · exact fun hc => hc.2 hn
    simpa [MessageBus.broadcast] using hl.2 this

/-- Concrete instance of `broadcast_spec`: three registered agents, sender
`a`, exclusion set `{b}`; `c` is the only recipient. -/
theorem broadcast_spec_witness :
    lookupA "c" ((⟨[("a", []), ("b", []), ("c", [])], []⟩ : MessageBus Unit).agents) =
      some [] ∧
    ((⟨[("a", []), ("b", []), ("c", [])], []⟩ : MessageBus Unit).broadcast
        { to_ := "", from_ := "a", message_type := MessageType.status, content := ()
          message_id := "m7" } ["b"] (fun _ => "u")).1 = 1 := by
  refine ⟨by decide, ?_⟩
  have hb := broadcast_spec (⟨[("a", []), ("b", []), ("c", [])], []⟩ : MessageBus Unit)
    { to_ := "", from_ := "a", message_type := MessageType.status, content := ()
      message_id := "m7" } ["b"] (fun _ => "u") "c" [] (by decide)
  have := hb.2.1
  simpa using this

/-- A concrete message used to exercise the history query. -/
def mex : Message Unit :=
  { to_ := "b", from_ := "a", message_type := MessageType.task, content := ()
    message_id := "m1" }

/-- Claim C7 counterexample: on a one-message history, `get_history` called
with `limit = 0` returns the whole (non-empty) history, not the empty
list the claim predicts for "the last 0 messages": the code's `if limit:`
treats `0` as absent. -/
theorem get_history_limit_zero_counterexample :
    (⟨[], [mex]⟩ : MessageBus Unit).get_history none (some 0) = [mex] ∧
    ([mex] : List (Message Unit)) ≠ [] := by
  exact ⟨by decide, by decide⟩

/-- Claim C7 amended: a non-empty `agent_id` filters the history to the
messages whose sender or recipient equals it, in arrival order; a nonzero
`limit` trims to the last `limit` matching messages; but `limit = 0` is
treated as if no limit were given (Python truthiness), returning the
untrimmed matching list. -/
theorem get_history_spec {α : Type} (bus : MessageBus α) (a : String) (n : Nat)
    (ha : a ≠ "") (hn : n ≠ 0) :
    bus.get_history (some a) none =
      bus.message_history.filter (fun msg => decide (msg.from_ = a ∨ msg.to_ = a)) ∧
    bus.get_history (some a) (some n) =
      takeLast n (bus.message_history.filter (fun msg => decide (msg.from_ = a ∨ msg.to_ = a))) ∧
    bus.get_history (some a) (some 0) =
      bus.message_history.filter (fun msg => decide (msg.from_ = a ∨ msg.to_ = a)) ∧
    bus.get_history none (some 0) = bus.message_history := by
  simp [MessageBus.get_history, ha, hn]

/-- Concrete instance of `get_history_spec` at agent id `a`, limit 1. -/
theorem get_history_spec_witness :
    (⟨[], [mex]⟩ : MessageBus Unit).get_history (some "a") (some 1) =
      takeLast 1 ([mex].filter (fun msg => decide (msg.from_ = "a" ∨ msg.to_ = "a"))) :=
  (get_history_spec (⟨[], [mex]⟩ : MessageBus Unit) "a" 1 (by decide) (by decide)).2.1

/-- Whether the first list of characters is an initial segment of the
second. -/
def isPrefixChars : List Char → List Char → Bool
  | [], _ => true
  | _ :: _, [] => false
  | a :: as, b :: bs => a == b && isPrefixChars as bs

/-- Whether the first list of characters occurs contiguously inside the
second: the meaning of Python's `needle in haystack` on strings. -/
def containsSub (needle : List Char) : List Char → Bool
  | [] => isPrefixChars needle []
  | c :: cs => isPrefixChars needle (c :: cs) || containsSub needle cs

/-- The characters of `s` lowercased: Python's `s.lower()` over the ASCII
text this repository feeds it. -/
def toLowerChars (s : String) : List Char := s.data.map Char.toLower

/-- `any(keyword in descLower for keyword in kws)`. -/
def keywordMatch (descLower : List Char) (kws : List String) : Bool :=
  kws.any (fun k => containsSub k.data descLower)

/-- The research-indicating keywords of `ManagerAgent._decompose`. -/
def researchKeywords : List String := ["research", "gather", "find", "investigate"]

/-- The analysis-indicating keywords of `ManagerAgent._decompose`. -/
def analysisKeywords : List String := ["analyze", "insights", "trends", "patterns"]

/-- The writing-indicating keywords of `ManagerAgent._decompose`. -/
def writingKeywords : List String := ["write", "create", "report", "document"]

/-- A subtask dict emitted by `ManagerAgent._decompose`: keys `type`,
`description`, `parameters`. -/
structure Subtask (π : Type) where
  type_ : String
  description : String
  parameters : π
deriving DecidableEq, Repr

/-- `ManagerAgent._decompose` from src/agents/manager/coordinator.py: one
subtask per keyword category matched in the lowercased description, in
the order research, analysis, writing; a single `general` subtask when
none matches. -/
def decompose {π : Type} (description : String) (parameters : π) : List (Subtask π) :=
  let dl := toLowerChars description
  let s1 : List (Subtask π) :=
    if keywordMatch dl researchKeywords then
      [⟨"research", "Research: " ++ description, parameters⟩] else []
  let s2 : List (Subtask π) :=
    if keywordMatch dl analysisKeywords then
      [⟨"analysis", "Analyze data for: " ++ description, parameters⟩] else []
  let s3 : List (Subtask π) :=
    if keywordMatch dl writingKeywords then
      [⟨"writing", "Write content for: " ++ description, parameters⟩] else []
  let subtasks := s1 ++ s2 ++ s3
  if subtasks.isEmpty then [⟨"general", description, parameters⟩] else subtasks

/-- The ordered category table of the decomposition policy: type tag,
keyword set, description prefix, in the fixed order research, analysis,
writing. -/
def categoryTable : List (String × List String × String) :=
  [("research", researchKeywords, "Research: "),
   ("analysis", analysisKeywords, "Analyze data for: "),
   ("writing", writingKeywords, "Write content for: ")]

/-- The subtasks the decomposition policy promises: one per matched
category of the ordered table, carrying the prefixed description and the
original parameters. -/
def matchedSubtasks {π : Type} (description : String) (parameters : π) : List (Subtask π) :=
  (categoryTable.filter (fun c => keywordMatch (toLowerChars description) c.2.1)).map
    (fun c => ⟨c.1, c.2.2 ++ description, parameters⟩)

/-- Claim C4: decomposition is deterministic, keyword-driven and
order-preserving — one subtask per matched category in the fixed order
research, analysis, writing, each with the prefixed description, the
category as type tag and the original parameters; exactly one `general`
subtask with the original description when nothing matches; and the
climate-change example yields a research subtask then a writing subtask
and nothing else. -/
theorem decompose_spec {π : Type} (d : String) (p : π) :
    (matchedSubtasks d p ≠ [] → decompose d p = matchedSubtasks d p) ∧
    (matchedSubtasks d p = [] → decompose d p = [⟨"general", d, p⟩]) ∧
    decompose "Research and write a report on climate change" p =
      [⟨"research", "Research: Research and write a report on climate change", p⟩,
       ⟨"writing", "Write content for: Research and write a report on climate change", p⟩] := by
  refine ⟨?_, ?_, ?_⟩
  · intro hne
    by_cases h1 : keywordMatch (toLowerChars d) researchKeywords <;>
      by_cases h2 : keywordMatch (toLowerChars d) analysisKeywords <;>
        by_cases h3 : keywordMatch (toLowerChars d) writingKeywords <;>
          simp [decompose, matchedSubtasks, categoryTable, h1, h2, h3] at hne ⊢
  · intro he
    by_cases h1 : keywordMatch (toLowerChars d) researchKeywords <;>
      by_cases h2 : keywordMatch (toLowerChars d) analysisKeywords <;>
        by_cases h3 : keywordMatch (toLowerChars d) writingKeywords <;>
          simp [decompose, matchedSubtasks, categoryTable, h1, h2, h3] at he ⊢
  · rfl

/-- Concrete instance of `decompose_spec`: the climate-change description
has matching categories, and decomposition returns exactly them. -/
theorem decompose_spec_witness :
    matchedSubtasks "Research and write a report on climate change" (0 : Nat) ≠ [] ∧
    decompose "Research and write a report on climate change" (0 : Nat) =
      matchedSubtasks "Research and write a report on climate change" (0 : Nat) :=
  ⟨by decide, (decompose_spec "Research and write a report on climate change" 0).1 (by decide)⟩

/-- The mutable per-agent state touched by `BaseAgent._handle_task_message`:
the `state` string and the `current_task` id. -/
structure AgentState where
  state : String
  current_task : Option String
deriving DecidableEq, Repr

/-- The task dict carried by a TASK message: `task_id` read with
`dict.get` (absent key gives `None`), plus the description and parameters
passed through to `process_task`. -/
structure TaskData (π : Type) where
  task_id : Option String
  description : String
  parameters : π
deriving DecidableEq, Repr

/-- Payloads of the messages the base agent receives and sends while
handling a task: the incoming task dict, the RESULT dict
`{task_id, result, status}`, and the ERROR dict
`{error, original_message_id}`. -/
inductive BAContent (π ρ : Type) where
  | taskC (task_data : TaskData π)
  | resultC (task_id : Option String) (result : ρ) (status : String)
  | errorC (error : String) (original_message_id : String)
deriving DecidableEq, Repr

/-- The task dict of a base-agent message payload, when it is one. -/
def taskDataOf {π ρ : Type} : BAContent π ρ → Option (TaskData π)
  | .taskC td => some td
  | _ => none

/-- `BaseAgent._send_error` from src/agents/base_agent.py: an ERROR message
to the original sender carrying the error text and the original message
id, correlated to the original message. -/
def sendError {π ρ : Type} (agent_id : String) (original : Message (BAContent π ρ))
    (err : String) (freshId : String) : Message (BAContent π ρ) :=
  { to_ := original.from_
    from_ := agent_id
    message_type := MessageType.error
    content := BAContent.errorC err original.message_id
    message_id := freshId
    correlation_id := some original.message_id }

/-- What one run of `BaseAgent._handle_task_message` does: the state set
while processing, the state left by the `finally` block, and the message
handed to `message_bus.send_message`. -/
structure TaskHandleOutcome (π ρ : Type) where
  busyState : AgentState
  finalState : AgentState
  sent : Message (BAContent π ρ)
deriving DecidableEq, Repr

/-- `BaseAgent._handle_task_message` from src/agents/base_agent.py: mark
busy and record the task id from the message content; run `process_task`
(its raising is the `Except.error` case); on success send a RESULT dict
`{task_id, result, status: "completed"}` correlated to the original, on
failure send the ERROR message of `sendError`; the `finally` block always
restores `idle` and clears `current_task`. -/
def handleTaskMessage {π ρ : Type} (agent_id : String)
    (proc : TaskData π → Except String ρ) (msg : Message (BAContent π ρ))
    (td : TaskData π) (freshId : String) : TaskHandleOutcome π ρ :=
  let busy : AgentState := { state := "busy", current_task := td.task_id }
  let sent :=
    match proc td with
    | .ok result =>
        { to_ := msg.from_
          from_ := agent_id
          message_type := MessageType.result
          content := BAContent.resultC td.task_id result "completed"
          message_id := freshId
          correlation_id := some msg.message_id : Message (BAContent π ρ) }
    | .error e => sendError agent_id msg e freshId
  { busyState := busy
    finalState := { state := "idle", current_task := none }
    sent := sent }

/-- Claim C1: handling a TASK message marks the agent busy with the task id
from the content; a successful `process_task` produces a RESULT message to
the sender with `{task_id, result, status: "completed"}` correlated to the
original message id, a raising one produces instead an ERROR message with
the error text and the original message id, also correlated; and in both
cases the agent ends idle with no current task. -/
theorem handle_task_spec {π ρ : Type} (agent_id : String)
    (proc : TaskData π → Except String ρ) (msg : Message (BAContent π ρ))
    (td : TaskData π) (fid : String)
    (hm : msg.message_type = MessageType.task)
    (hc : taskDataOf msg.content = some td) :
    (handleTaskMessage agent_id proc msg td fid).busyState.state = "busy" ∧
    (handleTaskMessage agent_id proc msg td fid).busyState.current_task = td.task_id ∧
    (∀ r, proc td = Except.ok r →
      (handleTaskMessage agent_id proc msg td fid).sent.message_type = MessageType.result ∧
      (handleTaskMessage agent_id proc msg td fid).sent.to_ = msg.from_ ∧
      (handleTaskMessage agent_id proc msg td fid).sent.content =
        BAContent.resultC td.task_id r "completed" ∧
      (handleTaskMessage agent_id proc msg td fid).sent.correlation_id =
        some msg.message_id) ∧
    (∀ e, proc td = Except.error e →
      (handleTaskMessage agent_id proc msg td fid).sent.message_type = MessageType.error ∧
      (handleTaskMessage agent_id proc msg td fid).sent.to_ = msg.from_ ∧
      (handleTaskMessage agent_id proc msg td fid).sent.content =
        BAContent.errorC e msg.message_id ∧
      (handleTaskMessage agent_id proc msg td fid).sent.correlation_id =
        some msg.message_id) ∧
    (handleTaskMessage agent_id proc msg td fid).finalState.state = "idle" ∧
    (handleTaskMessage agent_id proc msg td fid).finalState.current_task = none := by
  refine ⟨rfl, rfl, ?_, ?_, rfl, rfl⟩
  · intro r hr
    simp [handleTaskMessage, hr]
  · intro e he
    simp [handleTaskMessage, he, sendError]

/-- A concrete task dict for exercising the task handler. -/
def tdW : TaskData Nat := { task_id := some "t1", description := "d", parameters := 5 }

/-- A concrete incoming TASK message for exercising the task handler. -/
def msgW : Message (BAContent Nat String) :=
  { to_ := "worker", from_ := "manager", message_type := MessageType.task
    content := BAContent.taskC tdW, message_id := "orig1" }

/-- A task processor that always succeeds. -/
def procW : TaskData Nat → Except String String := fun _ => Except.ok "done"

/-- Concrete instance of `handle_task_spec`: a succeeding processor leaves
the agent idle with no current task and a RESULT correlated to the
original message. -/
theorem handle_task_spec_witness :
    (handleTaskMessage "worker" procW msgW tdW "f1").finalState.state = "idle" ∧
    (handleTaskMessage "worker" procW msgW tdW "f1").sent.correlation_id = some "orig1" := by
  have h := handle_task_spec "worker" procW msgW tdW "f1" rfl rfl
  exact ⟨h.2.2.2.2.1, (h.2.2.1 "done" rfl).2.2.2⟩

/-- `TaskStatus` from src/communication/protocol.py. -/
inductive TaskStatus where
  | pending
  | in_progress
  | completed
  | failed
  | cancelled
deriving DecidableEq, Repr

/-- `Task` from src/communication/protocol.py, polymorphic in the parameter
and result payloads. -/
structure Task (π ρ : Type) where
  task_id : String
  description : String
  task_type : String
  parameters : π
  priority : Int := 5
  required_capabilities : List String := []
  status : TaskStatus := TaskStatus.pending
  result : Option ρ := none
deriving DecidableEq, Repr

/-- `Coordinator` state from src/communication/coordination.py: the
`active_tasks` and `task_assignments` dicts.  The `agent_status` cache is
not touched by any modelled operation and is omitted. -/
structure Coordinator (π ρ : Type) where
  active_tasks : List (String × Task π ρ)
  task_assignments : List (String × String)
deriving DecidableEq, Repr

/-- `Coordinator.cancel_task` from src/communication/coordination.py: if the
task id is in `active_tasks`, set its status to CANCELLED and return
`True`; otherwise return `False`. -/
def Coordinator.cancel_task {π ρ : Type} (c : Coordinator π ρ) (task_id : String) :
    Bool × Coordinator π ρ :=
  match lookupA task_id c.active_tasks with
  | some task =>
      (true,
        { c with active_tasks :=
            insertA task_id { task with status := TaskStatus.cancelled } c.active_tasks })
  | none => (false, c)

/-- One iteration of the timeout sweep at the end of
`Coordinator.wait_for_results`: if `tid` is in `active_tasks`, set its
status to FAILED. -/
def markTimedOutFailedStep {π ρ : Type} (acc : Coordinator π ρ) (tid : String) :
    Coordinator π ρ :=
  match lookupA tid acc.active_tasks with
  | some task =>
      { acc with active_tasks :=
          insertA tid { task with status := TaskStatus.failed } acc.active_tasks }
  | none => acc

/-- The timeout sweep at the end of `Coordinator.wait_for_results`
(src/communication/coordination.py lines 117-121): every task id still in
`remaining_tasks` that is in `active_tasks` has its status set to
FAILED. -/
def markTimedOutFailed {π ρ : Type} (c : Coordinator π ρ) (remaining : List String) :
    Coordinator π ρ :=
  remaining.foldl markTimedOutFailedStep c

/-- Lookup after insert-or-replace: the inserted key reads back the new
value, every other key is untouched. -/
theorem lookupA_insertA {β : Type} (k q : String) (v : β) :
    ∀ l : List (String × β),
      lookupA q (insertA k v l) = if k = q then some v else lookupA q l
  | [] => by simp [insertA, lookupA]
  | (k0, v0) :: rest => by
      by_cases h0 : k0 = k
      · subst h0
        by_cases hq : k0 = q <;> simp [insertA, lookupA, hq]
      · by_cases hq : k0 = q
        · subst hq
          have : ¬k = k0 := fun h => h0 h.symm
          simp [insertA, lookupA, h0, this]
        · simp [insertA, lookupA, h0, hq, lookupA_insertA k q v rest]

/-- The timeout sweep leaves task ids outside `remaining` untouched. -/
theorem markTimedOutFailed_notmem {π ρ : Type} :
    ∀ (rem : List String) (c : Coordinator π ρ) (tid : String), tid ∉ rem →
      lookupA tid (markTimedOutFailed c rem).active_tasks = lookupA tid c.active_tasks
  | [], c, tid, _ => rfl
  | r :: rest, c, tid, h => by
      have hr : r ≠ tid := fun he => h (he ▸ List.mem_cons_self r rest)
      have ht : tid ∉ rest := fun he => h (List.mem_cons_of_mem r he)
      cases hl : lookupA r c.active_tasks with
      | none =>
          simpa [markTimedOutFailed, markTimedOutFailedStep, List.foldl_cons, hl] using
            markTimedOutFailed_notmem rest c tid ht
      | some task =>
          have := markTimedOutFailed_notmem rest
            { c with active_tasks :=
                insertA r { task with status := TaskStatus.failed } c.active_tasks } tid ht
          simpa [markTimedOutFailed, markTimedOutFailedStep, List.foldl_cons, hl,
            lookupA_insertA, hr] using this

/-- The timeout sweep marks FAILED every task in `active_tasks` whose id is
among the remaining ids, whatever its prior status. -/
theorem markTimedOutFailed_mem {π ρ : Type} :
    ∀ (rem : List String) (c : Coordinator π ρ) (tid : String) (t : Task π ρ),
      tid ∈ rem → lookupA tid c.active_tasks = some t →
      ∃ t', lookupA tid (markTimedOutFailed c rem).active_tasks = some t' ∧
        t'.status = TaskStatus.failed
  | [], _, _, _, hmem, _ => absurd hmem (List.not_mem_nil _)
  | r :: rest, c, tid, t, hmem, hl => by
      by_cases hr : r = tid
      · subst hr
        have hl' : lookupA r ((markTimedOutFailedStep c r).active_tasks) =
            some { t with status := TaskStatus.failed } := by
          simp [markTimedOutFailedStep, hl, lookupA_insertA]
        have hstep : markTimedOutFailed c (r :: rest) =
            markTimedOutFailed (markTimedOutFailedStep c r) rest := rfl
        by_cases hrest : r ∈ rest
        · obtain ⟨t', ht'⟩ := markTimedOutFailed_mem rest (markTimedOutFailedStep c r) r
            { t with status := TaskStatus.failed } hrest hl'
          exact ⟨t', by rw [hstep]; exact ht'.1, ht'.2⟩
        · refine ⟨{ t with status := TaskStatus.failed }, ?_, rfl⟩
          have hpre := markTimedOutFailed_notmem rest (markTimedOutFailedStep c r) r hrest
          rw [hstep, hpre]
          exact hl'
      · have hrest : tid ∈ rest := by
          rcases List.mem_cons.mp hmem with h | h
          · exact absurd h.symm hr
          · exact h
        have hl' : ∃ u, lookupA tid ((markTimedOutFailedStep c r).active_tasks) = some u := by
          cases hcl : lookupA r c.active_tasks with
          | none => exact ⟨t, by simp [markTimedOutFailedStep, hcl, hl]⟩
          | some task => exact ⟨t, by simp [markTimedOutFailedStep, hcl, lookupA_insertA, hr, hl]⟩
        obtain ⟨u, hu⟩ := hl'
        obtain ⟨t', ht'⟩ := markTimedOutFailed_mem rest (markTimedOutFailedStep c r) tid u hrest hu
        have hstep : markTimedOutFailed c (r :: rest) =
            markTimedOutFailed (markTimedOutFailedStep c r) rest := rfl
        exact ⟨t', by rw [hstep]; exact ht'.1, ht'.2⟩

/-- A concrete task already in terminal status COMPLETED. -/
def taskDone : Task Nat String :=
  { task_id := "t1", description := "d", task_type := "research", parameters := 0
    status := TaskStatus.completed }

/-- A concrete coordinator managing only `taskDone`. -/
def coordDone : Coordinator Nat String :=
  { active_tasks := [("t1", taskDone)], task_assignments := [] }

/-- Claim C5 counterexample: a task whose status is the terminal COMPLETED
is still changed by `cancel_task`, which sets it to CANCELLED and reports
success — terminality is not enforced. -/
theorem cancel_terminal_counterexample :
    taskDone.status = TaskStatus.completed ∧
    (coordDone.cancel_task "t1").1 = true ∧
    (lookupA "t1" (coordDone.cancel_task "t1").2.active_tasks).map Task.status =
      some TaskStatus.cancelled ∧
    TaskStatus.cancelled ≠ TaskStatus.completed := by
  exact ⟨rfl, rfl, by decide, by decide⟩

/-- Claim C5 amended: the Coordinator does not enforce terminality.
`cancel_task` sets the status of any task in `active_tasks` to CANCELLED,
whatever its prior status (including COMPLETED and FAILED), and returns
`true`; the timeout sweep of `wait_for_results` likewise sets FAILED on
every still-remaining task in `active_tasks`, whatever its prior
status. -/
theorem cancel_task_overrides_spec {π ρ : Type} (c : Coordinator π ρ) (tid : String)
    (t : Task π ρ) (h : lookupA tid c.active_tasks = some t) :
    (c.cancel_task tid).1 = true ∧
    lookupA tid (c.cancel_task tid).2.active_tasks =
      some { t with status := TaskStatus.cancelled } ∧
    (∀ rem, tid ∈ rem →
      ∃ t', lookupA tid (markTimedOutFailed c rem).active_tasks = some t' ∧
        t'.status = TaskStatus.failed) := by
  refine ⟨?_, ?_, ?_⟩
  · simp [Coordinator.cancel_task, h]
  · simp [Coordinator.cancel_task, h, lookupA_insertA]
  · intro rem hmem
    exact markTimedOutFailed_mem rem c tid t hmem h

/-- Concrete instance of `cancel_task_overrides_spec` on `coordDone`. -/
theorem cancel_task_overrides_spec_witness :
    (coordDone.cancel_task "t1").1 = true ∧
    lookupA "t1" (coordDone.cancel_task "t1").2.active_tasks =
      some { taskDone with status := TaskStatus.cancelled } :=
  ⟨(cancel_task_overrides_spec coordDone "t1" taskDone (by decide)).1,
   (cancel_task_overrides_spec coordDone "t1" taskDone (by decide)).2.1⟩

/-- The TASK-message payload built by `Coordinator.assign_task`:
`{task_id, description, task_type, parameters}`. -/
structure TaskMsgContent (π : Type) where
  task_id : String
  description : String
  task_type : String
  parameters : π
deriving DecidableEq, Repr

/-- `Coordinator.assign_task` from src/communication/coordination.py: build
the TASK message, send it over the bus, and only if the send succeeded
record the task under `active_tasks`, record the assignment, and set the
task's status to IN_PROGRESS.  Returns the send's success flag along with
the new bus, coordinator and task states. -/
def Coordinator.assign_task {π ρ : Type} (c : Coordinator π ρ)
    (bus : MessageBus (TaskMsgContent π)) (task : Task π ρ) (agent_id : String)
    (from_agent : String) (freshId : String) :
    Bool × MessageBus (TaskMsgContent π) × Coordinator π ρ × Task π ρ :=
  let message : Message (TaskMsgContent π) :=
    { to_ := agent_id
      from_ := from_agent
      message_type := MessageType.task
      content := ⟨task.task_id, task.description, task.task_type, task.parameters⟩
      message_id := freshId }
  let r := bus.send_message message
  if r.1 then
    let task' := { task with status := TaskStatus.in_progress }
    (true, r.2,
      { c with
          active_tasks := insertA task.task_id task' c.active_tasks
          task_assignments := insertA task.task_id agent_id c.task_assignments },
      task')
  else
    (false, r.2, c, task)

/-- Claim C9: when the underlying send fails because the target agent is
unregistered, `assign_task` returns `false` and changes nothing — the bus,
the coordinator's maps, and the task (still PENDING) are all exactly as
before; the task turns IN_PROGRESS and is recorded in `active_tasks` and
`task_assignments` only when the send succeeds. -/
theorem assign_task_atomic {π ρ : Type} (c : Coordinator π ρ)
    (bus : MessageBus (TaskMsgContent π)) (task : Task π ρ)
    (agent_id from_agent fid : String)
    (hp : task.status = TaskStatus.pending) :
    (lookupA agent_id bus.agents = none →
      (c.assign_task bus task agent_id from_agent fid).1 = false ∧
      (c.assign_task bus task agent_id from_agent fid).2.1 = bus ∧
      (c.assign_task bus task agent_id from_agent fid).2.2.1 = c ∧
      (c.assign_task bus task agent_id from_agent fid).2.2.2 = task ∧
      (c.assign_task bus task agent_id from_agent fid).2.2.2.status = TaskStatus.pending) ∧
    (∀ inbox, lookupA agent_id bus.agents = some inbox →
      (c.assign_task bus task agent_id from_agent fid).1 = true ∧
      (c.assign_task bus task agent_id from_agent fid).2.2.2.status =
        TaskStatus.in_progress ∧
      lookupA task.task_id
          (c.assign_task bus task agent_id from_agent fid).2.2.1.active_tasks =
        some { task with status := TaskStatus.in_progress } ∧
      lookupA task.task_id
          (c.assign_task bus task agent_id from_agent fid).2.2.1.task_assignments =
        some agent_id) := by
  constructor
  · intro h
    refine ⟨?_, ?_, ?_, ?_, ?_⟩ <;>
      simp [Coordinator.assign_task, MessageBus.send_message, h, hp]
  · intro inbox h
    refine ⟨?_, ?_, ?_, ?_⟩ <;>
      simp [Coordinator.assign_task, MessageBus.send_message, h, lookupA_insertA]

/-- Concrete instance of `assign_task_atomic`: empty bus, empty
coordinator, a fresh pending task. -/
theorem assign_task_atomic_witness :
    ((⟨[], []⟩ : Coordinator Nat String).assign_task (⟨[], []⟩ : MessageBus (TaskMsgContent Nat))
        { task_id := "t9", description := "d", task_type := "general", parameters := 0 }
        "nobody" "coordinator" "f9").1 = false ∧
    ((⟨[], []⟩ : Coordinator Nat String).assign_task (⟨[], []⟩ : MessageBus (TaskMsgContent Nat))
        { task_id := "t9", description := "d", task_type := "general", parameters := 0 }
        "nobody" "coordinator" "f9").2.2.2.status = TaskStatus.pending := by
  have h := (assign_task_atomic (⟨[], []⟩ : Coordinator Nat String)
    (⟨[], []⟩ : MessageBus (TaskMsgContent Nat))
    { task_id := "t9", description := "d", task_type := "general", parameters := 0 }
    "nobody" "coordinator" "f9" rfl).1 rfl
  exact ⟨h.1, h.2.2.2.2⟩

/-- The fields of a dequeued message's content that the manager's gather
loop reads with `dict.get`: `task_id` and `result` (absent keys give
`None`; an ERROR reply's content has no `task_id` key). -/
structure GContent (ρ : Type) where
  task_id : Option String
  result : Option ρ
deriving DecidableEq, Repr

/-- `ManagerAgent._gather_results` from src/agents/manager/coordinator.py,
over the sequence of messages dequeued from the manager's inbox: a RESULT
message whose `task_id` is still pending records its `result` and
resolves the id; every other dequeued message is dropped on the floor —
the loop calls no dispatch handler.  The loop ends when all ids are
resolved or the inbox sequence is exhausted (the timeout). -/
def gatherResults {ρ : Type} (remaining : List String)
    (msgs : List (Message (GContent ρ))) (results : List (String × Option ρ)) :
    List (String × Option ρ) :=
  match msgs with
  | [] => results
  | m :: rest =>
      if remaining.isEmpty then results
      else
        if m.message_type = MessageType.result then
          match m.content.task_id with
          | some tid =>
              if tid ∈ remaining then
                gatherResults (remaining.erase tid) rest (insertA tid m.content.result results)
              else gatherResults remaining rest results
          | none => gatherResults remaining rest results
        else gatherResults remaining rest results

/-- With no pending ids the gather loop returns its accumulator whatever
the inbox holds. -/
theorem gatherResults_nil_remaining {ρ : Type} (msgs : List (Message (GContent ρ)))
    (acc : List (String × Option ρ)) :
    gatherResults [] msgs acc = acc := by
  cases msgs <;> simp [gatherResults]

/-- Claim C10: a dequeued message that is not a RESULT whose `task_id` is
among the still-pending ids is silently discarded — removing it from the
inbox sequence changes nothing, and it reaches no dispatch handler (the
loop invokes none).  In particular an ERROR reply from a failed subtask
is dropped, so the gather outcome with it present equals the outcome with
it absent: a failed subtask is indistinguishable from a timed-out one. -/
theorem gather_discards_non_results {ρ : Type} (remaining : List String)
    (acc : List (String × Option ρ)) (msgs : List (Message (GContent ρ)))
    (m : Message (GContent ρ))
    (h : ¬(m.message_type = MessageType.result ∧
           ∃ tid, m.content.task_id = some tid ∧ tid ∈ remaining)) :
    gatherResults remaining (m :: msgs) acc = gatherResults remaining msgs acc ∧
    (∀ e : Message (GContent ρ), e.message_type = MessageType.error →
      gatherResults remaining (e :: msgs) acc = gatherResults remaining msgs acc) := by
  have hgen : ∀ m' : Message (GContent ρ),
      ¬(m'.message_type = MessageType.result ∧
        ∃ tid, m'.content.task_id = some tid ∧ tid ∈ remaining) →
      gatherResults remaining (m' :: msgs) acc = gatherResults remaining msgs acc := by
    intro m' h'
    rcases he : remaining with _ | ⟨r, rs⟩
    · rw [gatherResults_nil_remaining]
      cases msgs <;> simp [gatherResults]
    · rw [← he]
      have hne : ¬remaining.isEmpty := by simp [he]
      by_cases hty : m'.message_type = MessageType.result
      · cases hid : m'.content.task_id with
        | none => simp [gatherResults, hne, hty, hid]
        | some tid =>
            have hnm : tid ∉ remaining := fun hm => h' ⟨hty, tid, hid, hm⟩
            simp [gatherResults, hne, hty, hid, hnm]
      · simp [gatherResults, hne, hty]
  refine ⟨hgen m h, fun e he => hgen e ?_⟩
  rw [he]
  rintro ⟨hc, -⟩
  exact absurd hc (by simp)

/-- Concrete instance of `gather_discards_non_results`: with subtask `t1`
pending, an ERROR reply is dropped and the gather outcome is as if the
inbox had been empty. -/
theorem gather_discards_non_results_witness :
    gatherResults ["t1"]
        [{ to_ := "manager", from_ := "research_agent", message_type := MessageType.error
           content := ({ task_id := none, result := none } : GContent String)
           message_id := "e1", correlation_id := some "orig1" }] [] =
      gatherResults ["t1"] ([] : List (Message (GContent String))) [] :=
  (gather_discards_non_results ["t1"] [] []
      { to_ := "manager", from_ := "research_agent", message_type := MessageType.error
        content := ({ task_id := none, result := none } : GContent String)
        message_id := "e1", correlation_id := some "orig1" }
      (by rintro ⟨hc, -⟩; exact absurd hc (by simp))).1

/-- One entry of the list `ResearchAgent._multi_source_search` returns:
`{source, data, reliability}`.  Floats are modelled as exact rationals. -/
structure SourceResult (δ : Type) where
  source : String
  data : δ
  reliability : ℚ
deriving DecidableEq, Repr

/-- The dict `ResearchAgent._cross_check` returns: `sources_checked`,
`consolidated_data`, `reliability_score`. -/
structure Verified (δ : Type) where
  sources_checked : Nat
  consolidated_data : List (SourceResult δ)
  reliability_score : ℚ
deriving DecidableEq, Repr

/-- `ResearchAgent._cross_check` from src/agents/research/gatherer.py:
accumulate every source entry and set `reliability_score` to the average
of the per-source reliabilities (0 for an empty list).  Along the
`process_task` path every entry carries an explicit `reliability`, so the
`get(..., 0.5)` default never fires. -/
def crossCheck {δ : Type} (results : List (SourceResult δ)) : Verified δ :=
  { sources_checked := results.length
    consolidated_data := results
    reliability_score :=
      if results.isEmpty then 0
      else (results.map (fun r => r.reliability)).sum / (results.length : ℚ) }

/-- Round-half-to-even to an integer, the rounding of Python's `round`. -/
def roundHalfEven (x : ℚ) : ℤ :=
  if x - ⌊x⌋ < 1 / 2 then ⌊x⌋
  else if 1 / 2 < x - ⌊x⌋ then ⌊x⌋ + 1
  else if ⌊x⌋ % 2 = 0 then ⌊x⌋ else ⌊x⌋ + 1

/-- Python's `round(x, 2)`. -/
def round2 (x : ℚ) : ℚ := (roundHalfEven (x * 100) : ℚ) / 100

/-- `ResearchAgent._calculate_confidence` from
src/agents/research/gatherer.py: `source_factor` is the source count over
5 capped at 1, and the confidence is
`round(source_factor * 0.4 + reliability_score * 0.6, 2)`. -/
def calculateConfidence {δ : Type} (v : Verified δ) : ℚ :=
  let source_factor := min ((v.sources_checked : ℚ) / 5) 1
  round2 (source_factor * (4 / 10) + v.reliability_score * (6 / 10))

/-- `ResearchAgent._multi_source_search` from
src/agents/research/gatherer.py: an optional knowledge-base entry with
reliability 0.9, then the simulated web search with reliability 0.7 and
the simulated academic search with reliability 0.95.  `kbHit` is whether
`_search_knowledge_base` found a match. -/
def multiSourceSearch {δ : Type} (kbHit : Bool) (kbData webData acadData : δ) :
    List (SourceResult δ) :=
  (if kbHit then [⟨"knowledge_base", kbData, 9 / 10⟩] else []) ++
  [⟨"web_search", webData, 7 / 10⟩, ⟨"academic", acadData, 95 / 100⟩]

/-- The confidence value `ResearchAgent.process_task` puts into its result:
the composition search → cross-check → confidence. -/
def processTaskConfidence {δ : Type} (kbHit : Bool) (kb web acad : δ) : ℚ :=
  calculateConfidence (crossCheck (multiSourceSearch kbHit kb web acad))

/-- Round-half-to-even stays inside `[0, 100]` on that interval. -/
theorem roundHalfEven_bounds (x : ℚ) (h0 : 0 ≤ x) (h1 : x ≤ 100) :
    0 ≤ roundHalfEven x ∧ roundHalfEven x ≤ 100 := by
  have hf0 : (0 : ℤ) ≤ ⌊x⌋ := Int.floor_nonneg.mpr h0
  have hf100 : ⌊x⌋ ≤ 100 := by
    have := Int.floor_le_floor (α := ℚ) h1
    simpa using this
  have hsucc : ¬(x - ⌊x⌋ < 1 / 2) → ⌊x⌋ + 1 ≤ 100 := by
    intro hge
    have h2 : (1 : ℚ) / 2 ≤ x - ⌊x⌋ := le_of_not_lt hge
    have : (⌊x⌋ : ℚ) ≤ 100 - 1 / 2 := by linarith
    have hlt : (⌊x⌋ : ℚ) < 100 := lt_of_le_of_lt this (by norm_num)
    exact_mod_cast Int.add_one_le_of_lt (by exact_mod_cast hlt)
  unfold roundHalfEven
  by_cases hlo : x - ⌊x⌋ < 1 / 2
  · rw [if_pos hlo]
    exact ⟨hf0, hf100⟩
  · rw [if_neg hlo]
    by_cases hhi : 1 / 2 < x - ⌊x⌋
    · rw [if_pos hhi]
      exact ⟨by omega, hsucc hlo⟩
    · rw [if_neg hhi]
      by_cases hev : ⌊x⌋ % 2 = 0
      · rw [if_pos hev]
        exact ⟨hf0, hf100⟩
      · rw [if_neg hev]
        exact ⟨by omega, hsucc hlo⟩

/-- Python's `round(x, 2)` stays inside `[0, 1]` on that interval. -/
theorem round2_bounds (x : ℚ) (h0 : 0 ≤ x) (h1 : x ≤ 1) :
    0 ≤ round2 x ∧ round2 x ≤ 1 := by
  have hb := roundHalfEven_bounds (x * 100) (by linarith) (by linarith)
  constructor
  · unfold round2
    have : (0 : ℚ) ≤ (roundHalfEven (x * 100) : ℚ) := by exact_mod_cast hb.1
    positivity
  · unfold round2
    rw [div_le_one (by norm_num)]
    exact_mod_cast hb.2

/-- The reliability score computed by `crossCheck` is an average of the
per-source reliabilities, hence inside `[0, 1]` when they all are. -/
theorem crossCheck_score_bounds {δ : Type} (results : List (SourceResult δ))
    (h : ∀ r ∈ results, 0 ≤ r.reliability ∧ r.reliability ≤ 1) :
    0 ≤ (crossCheck results).reliability_score ∧
      (crossCheck results).reliability_score ≤ 1 := by
  rcases results with _ | ⟨r0, rest⟩
  · simp [crossCheck]
  · set l := r0 :: rest with hl
    have hlen : (0 : ℚ) < (l.length : ℚ) := by
      simp [hl]
      positivity
    have hsum0 : 0 ≤ (l.map (fun r => r.reliability)).sum :=
      List.sum_nonneg (by
        intro q hq
        obtain ⟨r, hr, rfl⟩ := List.mem_map.mp hq
        exact (h r hr).1)
    have hsum1 : (l.map (fun r => r.reliability)).sum ≤ (l.length : ℚ) := by
      have := List.sum_le_card_nsmul (l.map (fun r => r.reliability)) 1 (by
        intro q hq
        obtain ⟨r, hr, rfl⟩ := List.mem_map.mp hq
        exact (h r hr).2)
      simpa [nsmul_eq_mul] using this
    constructor
    · have : (crossCheck l).reliability_score =
          (l.map (fun r => r.reliability)).sum / (l.length : ℚ) := by
        simp [crossCheck, hl]
      rw [this]
      positivity
    · have : (crossCheck l).reliability_score =
          (l.map (fun r => r.reliability)).sum / (l.length : ℚ) := by
        simp [crossCheck, hl]
      rw [this, div_le_one hlen]
      exact hsum1

/-- Claim C8: for every task input processed along the research
specialist's `process_task` path — whether or not the knowledge base
matched — the computed confidence lies in `[0, 1]`: the source factor is
capped at 1 and the reliability score averages per-source reliabilities
each inside `[0, 1]`. -/
theorem research_confidence_bounds {δ : Type} (kbHit : Bool) (kb web acad : δ) :
    0 ≤ processTaskConfidence kbHit kb web acad ∧
      processTaskConfidence kbHit kb web acad ≤ 1 := by
  have hrel : ∀ r ∈ multiSourceSearch kbHit kb web acad,
      0 ≤ r.reliability ∧ r.reliability ≤ 1 := by
    intro r hr
    cases kbHit
    · simp [multiSourceSearch] at hr
      rcases hr with hr | hr <;> subst hr <;> norm_num
    · simp [multiSourceSearch] at hr
      rcases hr with hr | hr | hr <;> subst hr <;> norm_num
  have hscore := crossCheck_score_bounds (multiSourceSearch kbHit kb web acad) hrel
  have hsf0 : (0 : ℚ) ≤
      min (((crossCheck (multiSourceSearch kbHit kb web acad)).sources_checked : ℚ) / 5) 1 :=
    le_min (by positivity) (by norm_num)
  have hsf1 :
      min (((crossCheck (multiSourceSearch kbHit kb web acad)).sources_checked : ℚ) / 5) 1 ≤ 1 :=
    min_le_right _ _
  have harg0 : (0 : ℚ) ≤
      min (((crossCheck (multiSourceSearch kbHit kb web acad)).sources_checked : ℚ) / 5) 1 *
        (4 / 10) +
      (crossCheck (multiSourceSearch kbHit kb web acad)).reliability_score * (6 / 10) := by
    have := hscore.1
    nlinarith
  have harg1 :
      min (((crossCheck (multiSourceSearch kbHit kb web acad)).sources_checked : ℚ) / 5) 1 *
        (4 / 10) +
      (crossCheck (multiSourceSearch kbHit kb web acad)).reliability_score * (6 / 10) ≤ 1 := by
    have := hscore.2
    nlinarith
  have := round2_bounds _ harg0 harg1
  exact ⟨this.1, this.2⟩

end MAS
